import Mathlib

/-!
# Verification of the Schelling-with-perception model (`model_uniform.py`)

Shallow embedding of `src/mesa_w_perception/model_uniform.py`, a Mesa-based
Schelling segregation model with continuous homophily thresholds and a
perceived-similarity credit for dissimilar neighbors.

Modelling conventions:
* Python float arithmetic is idealised as exact rational arithmetic (`ℚ`).
* The primary random source (`self.random.random()`, a seeded Mersenne
  Twister) is an oracle `rand : ℕ → ℚ` giving the k-th draw of the stream.
* The numpy draw `np.random.seed(s); np.random.uniform(lb, ub)` is a pure
  function of the seed and the bounds, abstracted as an oracle
  `npUniform : ℕ → ℚ → ℚ → ℚ`.
* Mesa's `grid.move_to_empty(agent)` picks a uniformly random empty cell;
  the chosen destination is an oracle `picks : ℕ → Pos` giving the target
  cell for the agent at schedule index `i` in the current tick.
* Mesa's `RandomActivation.step` shuffles the agent list each tick; the
  shuffled order is an explicit argument `order : List ℕ` of schedule
  indices.
* Mesa's `Model.next_id()` increments `current_id` and returns it
  (`current_id` starts at 0), and `Model.__init__` sets `running = True`.
-/

namespace MesaWPerception

/-- A grid coordinate `(x, y)`. -/
abbrev Pos : Type := ℕ × ℕ

/-- State of a `SchellingAgent` (`SchellingAgent.__init__` fields).
`similar` is a Python `int`; `accepted_dissimilar` and `perceived_similar`
are floats, idealised as `ℚ`. -/
structure SchellingAgent where
  unique_id : ℕ
  type : ℕ
  homophily : ℚ
  similar : ℕ
  accepted_dissimilar : ℚ
  perceived_similar : ℚ
deriving DecidableEq

/-- `SchellingAgent.__init__(unique_id, model, agent_type, homophily,
similar, accepted_dissimilar)`: stores the arguments and sets
`perceived_similar = similar + accepted_dissimilar` (this is the only
place the source ever assigns `perceived_similar`). -/
def SchellingAgent.create (unique_id : ℕ) (agent_type : ℕ) (homophily : ℚ)
    (similar : ℕ) (accepted_dissimilar : ℚ) : SchellingAgent :=
  { unique_id := unique_id
    type := agent_type
    homophily := homophily
    similar := similar
    accepted_dissimilar := accepted_dissimilar
    perceived_similar := (similar : ℚ) + accepted_dissimilar }

/-- State of the `Schelling` model.  `agents` is the scheduler's agent list
in insertion order, each paired with its grid position (`SingleGrid` keeps
one agent per cell). -/
structure Schelling where
  height : ℕ
  width : ℕ
  density : ℚ
  minority_pc : ℚ
  homophily_ub : ℚ
  homophily_lb : ℚ
  radius : ℕ
  preference : ℚ
  happy : ℕ
  similarity : ℚ
  running : Bool
  agents : List (SchellingAgent × Pos)
deriving DecidableEq

/-- Toroidal distance between coordinates `a b` on a cycle of length `w`. -/
def wrapDist (w a b : ℕ) : ℕ :=
  min ((a + w - b) % w) ((b + w - a) % w)

/-- Whether cell `q` lies in the Moore neighborhood of radius `radius`
around cell `p` on a `width × height` torus (the center cell itself is
excluded, as in `grid.iter_neighbors`). -/
def inMooreRadius (width height radius : ℕ) (p q : Pos) : Bool :=
  decide (p ≠ q) && decide (wrapDist width p.1 q.1 ≤ radius)
    && decide (wrapDist height p.2 q.2 ≤ radius)

/-- The `(type, position)` view of every agent on the grid. -/
def occupantView (m : Schelling) : List (ℕ × Pos) :=
  m.agents.map (fun ap => (ap.1.type, ap.2))

/-- Types of the occupants yielded by
`self.model.grid.iter_neighbors(pos, moore=True, radius=self.model.radius)`:
the agents occupying cells of the Moore neighborhood of `p`.  The loop in
`SchellingAgent.step` reads only each neighbor's `type`, and folds a
commutative sum, so the traversal order is immaterial. -/
def neighborTypes (m : Schelling) (p : Pos) : List ℕ :=
  ((occupantView m).filter
    (fun tp => inMooreRadius m.width m.height m.radius p tp.2)).map Prod.fst

/-- The neighbor loop of `SchellingAgent.step` after the reset
`similar = 0; accepted_dissimilar = 0`: for each neighbor, a same-type
neighbor does `similar += 1`, a different-type neighbor does
`accepted_dissimilar += preference*(1/homophily)*1`. -/
def stepCounts (agentType : ℕ) (homophily preference : ℚ)
    (neighbors : List ℕ) : ℕ × ℚ :=
  neighbors.foldl
    (fun acc nt =>
      if nt = agentType then (acc.1 + 1, acc.2)
      else (acc.1, acc.2 + preference * (1 / homophily) * 1))
    (0, 0)

/-- One activation of the agent at schedule index `i`
(`SchellingAgent.step`): recompute `similar` / `accepted_dissimilar` from
the current neighborhood, then either move to an empty cell (`picks i`
stands for the random choice of `grid.move_to_empty`) when
`similar + accepted_dissimilar < homophily`, or stay and do
`self.model.happy += 1`.  Note the source never updates
`perceived_similar` here. -/
def agentActivate (picks : ℕ → Pos) (m : Schelling) (i : ℕ) : Schelling :=
  match m.agents[i]? with
  | none => m
  | some ap =>
    let sd := stepCounts ap.1.type ap.1.homophily m.preference
      (neighborTypes m ap.2)
    let a2 : SchellingAgent :=
      { ap.1 with similar := sd.1, accepted_dissimilar := sd.2 }
    if (sd.1 : ℚ) + sd.2 < ap.1.homophily then
      { m with agents := m.agents.set i (a2, picks i) }
    else
      { m with agents := m.agents.set i (a2, ap.2), happy := m.happy + 1 }

/-- Whether the agent at schedule index `i` would pass the satisfaction
test `not (similar + accepted_dissimilar < homophily)` if activated in
state `m` (the exact test of `SchellingAgent.step` on the current
neighborhood). -/
def satisfiedAt (m : Schelling) (i : ℕ) : Bool :=
  match m.agents[i]? with
  | none => false
  | some ap =>
    let sd := stepCounts ap.1.type ap.1.homophily m.preference
      (neighborTypes m ap.2)
    !decide ((sd.1 : ℚ) + sd.2 < ap.1.homophily)

/-- `self.schedule.step()`: activate every index of `order` (the shuffled
schedule order of this tick) in sequence. -/
def scheduleRun (picks : ℕ → Pos) (m : Schelling) (order : List ℕ) :
    Schelling :=
  order.foldl (agentActivate picks) m

/-- Sum of `agent.similar` over the scheduler's agents. -/
def sumSimilar (m : Schelling) : ℚ :=
  (m.agents.map (fun ap => (ap.1.similar : ℚ))).sum

/-- `calc_similarity(model)`: `sum(agent.similar) / N` with
`N = density*width*height`. -/
def calc_similarity (m : Schelling) : ℚ :=
  sumSimilar m / (m.density * (m.width : ℚ) * (m.height : ℚ))

/-- Python's `round` to the nearest integer, ties to even (the idealised
behavior of `round` on an exactly-represented value). -/
def pyRoundInt (x : ℚ) : ℤ :=
  if x - Int.floor x < 1 / 2 then Int.floor x
  else if 1 / 2 < x - Int.floor x then Int.floor x + 1
  else if Int.floor x % 2 = 0 then Int.floor x else Int.floor x + 1

/-- Python's `round(x, 2)`. -/
def pyRound2 (x : ℚ) : ℚ :=
  (pyRoundInt (100 * x) : ℚ) / 100

/-- `Schelling.step`: reset `happy` to 0, run the scheduler, set
`similarity = round(calc_similarity(self), 2)`, collect data (pure
reporting, no state), and set `running = False` when
`happy == self.schedule.get_agent_count()` (there is no else branch). -/
def modelStep (picks : ℕ → Pos) (order : List ℕ) (m : Schelling) :
    Schelling :=
  let m1 : Schelling := { m with happy := 0 }
  let m2 : Schelling := scheduleRun picks m1 order
  let m3 : Schelling := { m2 with similarity := pyRound2 (calc_similarity m2) }
  if m3.happy = m3.agents.length then { m3 with running := false } else m3

/-- Accumulator state of the population-initialisation loop of
`Schelling.__init__`: position in the primary random stream, Mesa's
`current_id`, and the agents placed so far (with positions). -/
structure InitState where
  nextRand : ℕ
  current_id : ℕ
  agents : List (SchellingAgent × Pos)
deriving DecidableEq

/-- One iteration of the setup loop of `Schelling.__init__` for cell
`pos`: with `self.random.random() < density`, draw the type
(`1 if self.random.random() < minority_pc else 0`), then
`np.random.seed(self.next_id())` (this consumes one id!), draw
`homophily = np.random.uniform(lb, ub)`, and create the agent with
`self.next_id()` as its `unique_id` (so the numpy seed is the agent's
`unique_id - 1`), placing it at `pos` and adding it to the schedule. -/
def placeCell (density minority_pc homophily_lb homophily_ub : ℚ)
    (rand : ℕ → ℚ) (npUniform : ℕ → ℚ → ℚ → ℚ)
    (st : InitState) (pos : Pos) : InitState :=
  if rand st.nextRand < density then
    let agent_type : ℕ := if rand (st.nextRand + 1) < minority_pc then 1 else 0
    let seedId : ℕ := st.current_id + 1
    let homophily : ℚ := npUniform seedId homophily_lb homophily_ub
    let uid : ℕ := seedId + 1
    let agent : SchellingAgent :=
      SchellingAgent.create uid agent_type homophily 0 0
    { nextRand := st.nextRand + 2
      current_id := uid
      agents := st.agents ++ [(agent, pos)] }
  else
    { st with nextRand := st.nextRand + 1 }

/-- The cell traversal of `self.grid.coord_iter()` (row-major over the
underlying `width × height` storage). -/
def coordIter (width height : ℕ) : List Pos :=
  (List.range width).flatMap (fun x => (List.range height).map (fun y => (x, y)))

/-- `Schelling.__init__`: store the parameters, build the scheduler and
grid, set `happy = 0`, `similarity = 0` (Mesa's `Model.__init__` set
`running = True` and `current_id = 0`), then run the setup loop over
`coord_iter()`; the final `datacollector.collect` is pure reporting.
The source performs no validation of the parameters. -/
def schellingInit (height width : ℕ) (homophily_lb homophily_ub preference : ℚ)
    (radius : ℕ) (density minority_pc : ℚ)
    (rand : ℕ → ℚ) (npUniform : ℕ → ℚ → ℚ → ℚ) : Schelling :=
  let st : InitState :=
    (coordIter width height).foldl
      (placeCell density minority_pc homophily_lb homophily_ub rand npUniform)
      { nextRand := 0, current_id := 0, agents := [] }
  { height := height
    width := width
    density := density
    minority_pc := minority_pc
    homophily_ub := homophily_ub
    homophily_lb := homophily_lb
    radius := radius
    preference := preference
    happy := 0
    similarity := 0
    running := true
    agents := st.agents }

/-- A concrete run used to evaluate the model: a `2 × 1` torus, fully
occupied (`density = 1`) by two type-0 agents with
`homophily_lb = homophily_ub = 1`, `preference = 0`, `radius = 1`. -/
def demoModel : Schelling :=
  schellingInit 1 2 1 1 0 1 1 0 (fun _ => 0) (fun _ _ _ => 1)

/-- Relocation oracle for the demo run (never used: both agents are
satisfied). -/
def demoPicks : ℕ → Pos := fun _ => (0, 0)

/-- Number of activations along `order` (starting from state `m`) whose
satisfaction test succeeds: the specification-side count of satisfied
agents in one tick. -/
def countSatAlong (picks : ℕ → Pos) : Schelling → List ℕ → ℕ
  | _, [] => 0
  | m, i :: rest =>
      (if satisfiedAt m i then 1 else 0) +
        countSatAlong picks (agentActivate picks m i) rest

lemma demoModel_eq : demoModel =
    { height := 1, width := 2, density := 1, minority_pc := 0,
      homophily_ub := 1, homophily_lb := 1, radius := 1, preference := 0,
      happy := 0, similarity := 0, running := true,
      agents := [(⟨2, 0, 1, 0, 0, 0⟩, (0, 0)), (⟨4, 0, 1, 0, 0, 0⟩, (1, 0))] } := by
  with_unfolding_all decide

lemma demoStep_eq : modelStep demoPicks [0, 1] demoModel =
    { height := 1, width := 2, density := 1, minority_pc := 0,
      homophily_ub := 1, homophily_lb := 1, radius := 1, preference := 0,
      happy := 2, similarity := 1, running := false,
      agents := [(⟨2, 0, 1, 1, 0, 0⟩, (0, 0)), (⟨4, 0, 1, 1, 0, 0⟩, (1, 0))] } := by
  with_unfolding_all decide

/-! ## Basic bookkeeping lemmas -/

lemma agentActivate_happy (picks : ℕ → Pos) (m : Schelling) (i : ℕ) :
    (agentActivate picks m i).happy =
      m.happy + (if satisfiedAt m i then 1 else 0) := by
  unfold agentActivate satisfiedAt
  cases h : m.agents[i]? with
  | none => simp
  | some ap =>
    by_cases hlt :
        ((stepCounts ap.1.type ap.1.homophily m.preference
            (neighborTypes m ap.2)).1 : ℚ) +
          (stepCounts ap.1.type ap.1.homophily m.preference
            (neighborTypes m ap.2)).2 < ap.1.homophily <;>
      simp [hlt]

lemma agentActivate_agents_length (picks : ℕ → Pos) (m : Schelling) (i : ℕ) :
    (agentActivate picks m i).agents.length = m.agents.length := by
  unfold agentActivate
  cases h : m.agents[i]? with
  | none => rfl
  | some ap => dsimp only; split <;> simp

lemma agentActivate_width (picks : ℕ → Pos) (m : Schelling) (i : ℕ) :
    (agentActivate picks m i).width = m.width := by
  unfold agentActivate
  cases h : m.agents[i]? with
  | none => rfl
  | some ap => dsimp only; split <;> rfl

lemma agentActivate_height (picks : ℕ → Pos) (m : Schelling) (i : ℕ) :
    (agentActivate picks m i).height = m.height := by
  unfold agentActivate
  cases h : m.agents[i]? with
  | none => rfl
  | some ap => dsimp only; split <;> rfl

lemma agentActivate_density (picks : ℕ → Pos) (m : Schelling) (i : ℕ) :
    (agentActivate picks m i).density = m.density := by
  unfold agentActivate
  cases h : m.agents[i]? with
  | none => rfl
  | some ap => dsimp only; split <;> rfl

lemma agentActivate_running (picks : ℕ → Pos) (m : Schelling) (i : ℕ) :
    (agentActivate picks m i).running = m.running := by
  unfold agentActivate
  cases h : m.agents[i]? with
  | none => rfl
  | some ap => dsimp only; split <;> rfl

lemma scheduleRun_width (picks : ℕ → Pos) (order : List ℕ) (m : Schelling) :
    (scheduleRun picks m order).width = m.width := by
  induction order generalizing m with
  | nil => rfl
  | cons i rest ih => simp [scheduleRun, List.foldl_cons] at ih ⊢
                      rw [ih, agentActivate_width]

lemma scheduleRun_height (picks : ℕ → Pos) (order : List ℕ) (m : Schelling) :
    (scheduleRun picks m order).height = m.height := by
  induction order generalizing m with
  | nil => rfl
  | cons i rest ih => simp [scheduleRun, List.foldl_cons] at ih ⊢
                      rw [ih, agentActivate_height]

lemma scheduleRun_density (picks : ℕ → Pos) (order : List ℕ) (m : Schelling) :
    (scheduleRun picks m order).density = m.density := by
  induction order generalizing m with
  | nil => rfl
  | cons i rest ih => simp [scheduleRun, List.foldl_cons] at ih ⊢
                      rw [ih, agentActivate_density]

lemma scheduleRun_running (picks : ℕ → Pos) (order : List ℕ) (m : Schelling) :
    (scheduleRun picks m order).running = m.running := by
  induction order generalizing m with
  | nil => rfl
  | cons i rest ih => simp [scheduleRun, List.foldl_cons] at ih ⊢
                      rw [ih, agentActivate_running]

lemma scheduleRun_length (picks : ℕ → Pos) (order : List ℕ) (m : Schelling) :
    (scheduleRun picks m order).agents.length = m.agents.length := by
  induction order generalizing m with
  | nil => rfl
  | cons i rest ih => simp [scheduleRun, List.foldl_cons] at ih ⊢
                      rw [ih, agentActivate_agents_length]

lemma modelStep_happy (picks : ℕ → Pos) (order : List ℕ) (m : Schelling) :
    (modelStep picks order m).happy =
      (scheduleRun picks { m with happy := 0 } order).happy := by
  unfold modelStep
  dsimp only
  split <;> rfl

lemma modelStep_agents (picks : ℕ → Pos) (order : List ℕ) (m : Schelling) :
    (modelStep picks order m).agents =
      (scheduleRun picks { m with happy := 0 } order).agents := by
  unfold modelStep
  dsimp only
  split <;> rfl

lemma modelStep_similarity (picks : ℕ → Pos) (order : List ℕ) (m : Schelling) :
    (modelStep picks order m).similarity =
      pyRound2 (calc_similarity (scheduleRun picks { m with happy := 0 } order)) := by
  unfold modelStep
  dsimp only
  split <;> rfl

lemma scheduleRun_happy (picks : ℕ → Pos) (order : List ℕ) (m : Schelling) :
    (scheduleRun picks m order).happy = m.happy + countSatAlong picks m order := by
  induction order generalizing m with
  | nil => simp [scheduleRun, countSatAlong]
  | cons i rest ih =>
    simp only [scheduleRun, List.foldl_cons, countSatAlong] at ih ⊢
    rw [ih, agentActivate_happy, Nat.add_assoc]

lemma stepCounts_foldl (t : ℕ) (h p : ℚ) (ns : List ℕ) (s0 : ℕ) (d0 : ℚ) :
    ns.foldl
      (fun acc nt =>
        if nt = t then (acc.1 + 1, acc.2)
        else (acc.1, acc.2 + p * (1 / h) * 1))
      (s0, d0) =
    (s0 + ns.countP (fun nt => nt == t),
      d0 + (ns.countP (fun nt => nt != t) : ℚ) * (p * (1 / h))) := by
  induction ns generalizing s0 d0 with
  | nil => simp
  | cons x xs ih =>
    by_cases hx : x = t
    · subst hx
      rw [List.foldl_cons, if_pos rfl, ih, List.countP_cons, List.countP_cons]
      simp only [Prod.mk.injEq]
      constructor
      · have hb : (x == x) = true := by simp
        rw [hb]
        simp only [if_pos trivial]
        omega
      · simp
    · simp only [List.foldl_cons, if_neg hx, ih, List.countP_cons]
      simp only [Prod.mk.injEq]
      refine ⟨by simp [hx], ?_⟩
      have hbne : (x != t) = true := by simp [hx]
      rw [hbne]
      simp only [if_pos trivial, Nat.cast_add, Nat.cast_one]
      ring

lemma list_set_same {α : Type} (l : List α) (i : ℕ) (x : α)
    (h : l[i]? = some x) : l.set i x = l := by
  apply List.ext_getElem?
  intro n
  by_cases hn : i = n
  · subst hn
    rw [h]
    rcases List.getElem?_eq_some_iff.mp h with ⟨hi, hx⟩
    exact List.getElem?_set_eq_of_lt x hi
  · exact List.getElem?_set_ne hn

lemma occupantView_set (m : Schelling) (i : ℕ) (a a2 : SchellingAgent)
    (q : Pos) (hget : m.agents[i]? = some (a, q)) (hty : a2.type = a.type) :
    occupantView { m with agents := m.agents.set i (a2, q) } = occupantView m := by
  unfold occupantView
  dsimp only
  rw [List.map_set]
  apply list_set_same
  rw [List.getElem?_map, hget]
  simp [hty]

lemma neighborTypes_set (m : Schelling) (i : ℕ) (a a2 : SchellingAgent)
    (q : Pos) (hget : m.agents[i]? = some (a, q)) (hty : a2.type = a.type)
    (r : Pos) :
    neighborTypes { m with agents := m.agents.set i (a2, q) } r =
      neighborTypes m r := by
  unfold neighborTypes
  rw [occupantView_set m i a a2 q hget hty]

/-! ## Claims -/

/-- Claim C3: after the reset, each occupied Moore neighbor of the same
type adds exactly 1 to `similar` and each neighbor of a different type
adds exactly `preference * (1/homophily)` to `accepted_dissimilar`, so the
loop of `SchellingAgent.step` leaves `similar` equal to the number of
same-type neighbors and `accepted_dissimilar` equal to the number of
different-type neighbors times `preference / homophily` (the hypothesis
`homophily ≠ 0` keeps the rational-division reading faithful to the
source's float division). -/
theorem c3_neighbor_counts (t : ℕ) (h p : ℚ) (ns : List ℕ) (hne : h ≠ 0) :
    (stepCounts t h p ns).1 = ns.countP (fun nt => nt == t) ∧
    (stepCounts t h p ns).2 = (ns.countP (fun nt => nt != t) : ℚ) * p / h := by
  unfold stepCounts
  rw [stepCounts_foldl]
  refine ⟨?_, ?_⟩ <;> dsimp only
  · omega
  · rw [zero_add, one_div, div_eq_mul_inv]
    ring

/-- Witness for C3 at `t = 0`, `homophily = 1`, `preference = 1`,
neighbors `[0, 1, 1]`. -/
theorem c3_neighbor_counts_witness :
    ((1 : ℚ) ≠ 0) ∧
    ((stepCounts 0 1 1 [0, 1, 1]).1 = [0, 1, 1].countP (fun nt => nt == 0) ∧
     (stepCounts 0 1 1 [0, 1, 1]).2 =
       ([0, 1, 1].countP (fun nt => nt != 0) : ℚ) * 1 / 1) :=
  ⟨by norm_num, c3_neighbor_counts 0 1 1 [0, 1, 1] (by norm_num)⟩

/-- Claim C9: in every `Schelling.step`, `happy` is reset to 0 before the
scheduler runs and ends the tick equal to the number of activations whose
satisfaction test `similar + accepted_dissimilar ≥ homophily` succeeded;
moreover each single activation adds exactly 1 to `happy` when its test
succeeds and 0 otherwise (never decrementing it). -/
theorem c9_happy_conservation (picks : ℕ → Pos) (order : List ℕ)
    (m : Schelling) :
    (modelStep picks order m).happy =
      countSatAlong picks { m with happy := 0 } order ∧
    ∀ j : ℕ, (agentActivate picks m j).happy =
      m.happy + (if satisfiedAt m j then 1 else 0) := by
  refine ⟨?_, fun j => agentActivate_happy picks m j⟩
  rw [modelStep_happy, scheduleRun_happy]
  simp

/-- Claim C4: after every `Schelling.step`, `similarity` equals
`round(sum(agent.similar) / (density * width * height), 2)`; the
denominator is the nominal capacity `density * width * height` of the
model, not the length of the agent list. -/
theorem c4_similarity_nominal (picks : ℕ → Pos) (order : List ℕ)
    (m : Schelling) :
    (modelStep picks order m).similarity =
      pyRound2 (sumSimilar (modelStep picks order m) /
        (m.density * (m.width : ℚ) * (m.height : ℚ))) := by
  rw [modelStep_similarity]
  have hd := scheduleRun_density picks order { m with happy := 0 }
  have hw := scheduleRun_width picks order { m with happy := 0 }
  have hh := scheduleRun_height picks order { m with happy := 0 }
  have ha := modelStep_agents picks order m
  unfold calc_similarity
  rw [hd, hw, hh]
  unfold sumSimilar
  rw [ha]

/-- Claim C7: for a running model, after `Schelling.step` the `running`
flag is false exactly when `happy` equals the number of scheduled agents;
otherwise (at least one agent unsatisfied this tick) it stays true. -/
theorem c7_termination (picks : ℕ → Pos) (order : List ℕ) (m : Schelling)
    (hrun : m.running = true) :
    ((modelStep picks order m).running = false ↔
      (modelStep picks order m).happy =
        (modelStep picks order m).agents.length) := by
  have hr : (scheduleRun picks { m with happy := 0 } order).running = true := by
    rw [scheduleRun_running]
    exact hrun
  unfold modelStep
  dsimp only
  split
  case isTrue hc => simpa using hc
  case isFalse hc =>
    constructor
    · intro hfalse
      rw [show ({ scheduleRun picks { m with happy := 0 } order with
          similarity := pyRound2 (calc_similarity
            (scheduleRun picks { m with happy := 0 } order)) } :
          Schelling).running =
          (scheduleRun picks { m with happy := 0 } order).running from rfl,
        hr] at hfalse
      exact absurd hfalse (by simp)
    · intro heq
      exact absurd heq hc

/-- Witness for C7 at the demo model: both agents are satisfied after one
tick, so `running` flips to false and `happy` equals the agent count. -/
theorem c7_termination_witness :
    demoModel.running = true ∧
    ((modelStep demoPicks [0, 1] demoModel).running = false ↔
      (modelStep demoPicks [0, 1] demoModel).happy =
        (modelStep demoPicks [0, 1] demoModel).agents.length) :=
  ⟨rfl, c7_termination demoPicks [0, 1] demoModel rfl⟩

/-- Claim C2: in every activation, the agent is satisfied — keeps its
position and bumps `happy` by one — exactly when
`similar + accepted_dissimilar ≥ homophily` over its current
neighborhood; otherwise it is relocated (to the empty cell chosen by
`grid.move_to_empty`, here the oracle `picks i`) and `happy` is
unchanged. -/
theorem c2_satisfaction_rule (picks : ℕ → Pos) (m : Schelling) (i : ℕ)
    (a : SchellingAgent) (q : Pos) (hget : m.agents[i]? = some (a, q)) :
    ((a.homophily ≤
        ((stepCounts a.type a.homophily m.preference
            (neighborTypes m q)).1 : ℚ) +
          (stepCounts a.type a.homophily m.preference (neighborTypes m q)).2) →
      (agentActivate picks m i).happy = m.happy + 1 ∧
        ((agentActivate picks m i).agents[i]?).map Prod.snd = some q) ∧
    ((((stepCounts a.type a.homophily m.preference
            (neighborTypes m q)).1 : ℚ) +
          (stepCounts a.type a.homophily m.preference (neighborTypes m q)).2 <
        a.homophily) →
      (agentActivate picks m i).happy = m.happy ∧
        ((agentActivate picks m i).agents[i]?).map Prod.snd =
          some (picks i)) := by
  rcases List.getElem?_eq_some_iff.mp hget with ⟨hi, _⟩
  unfold agentActivate
  rw [hget]
  dsimp only
  by_cases hlt :
      ((stepCounts a.type a.homophily m.preference
          (neighborTypes m q)).1 : ℚ) +
        (stepCounts a.type a.homophily m.preference (neighborTypes m q)).2 <
      a.homophily
  · rw [if_pos hlt]
    constructor
    · intro hge
      exact absurd hlt (not_lt.mpr hge)
    · intro _
      refine ⟨rfl, ?_⟩
      rw [List.getElem?_set_eq_of_lt _ hi]
      rfl
  · rw [if_neg hlt]
    constructor
    · intro _
      refine ⟨rfl, ?_⟩
      rw [List.getElem?_set_eq_of_lt _ hi]
      rfl
    · intro hlt2
      exact absurd hlt2 hlt

/-- Witness for C2: agent 0 of the demo model has one same-type neighbor,
passes the satisfaction test, and increments `happy`. -/
theorem c2_satisfaction_rule_witness :
    (demoModel.agents[0]? = some (⟨2, 0, 1, 0, 0, 0⟩, (0, 0))) ∧
    (agentActivate demoPicks demoModel 0).happy = demoModel.happy + 1 :=
  ⟨by with_unfolding_all decide,
    ((c2_satisfaction_rule demoPicks demoModel 0 ⟨2, 0, 1, 0, 0, 0⟩ (0, 0)
        (by with_unfolding_all decide)).1
      (by with_unfolding_all decide)).1⟩

/-- Claim C8: the activation of `SchellingAgent.step` resets `similar` and
`accepted_dissimilar` before the neighbor loop, so the post-activation
values are exactly `stepCounts` of the activation-time neighborhood and do
not depend on whatever values (`s0`, `d0`, `pv0`) the agent carried in
from previous ticks. -/
theorem c8_reset_invariant (picks : ℕ → Pos) (m : Schelling) (i : ℕ)
    (a : SchellingAgent) (q : Pos) (s0 : ℕ) (d0 pv0 : ℚ)
    (hget : m.agents[i]? = some (a, q)) :
    ((agentActivate picks m i).agents[i]?).map
        (fun ap => (ap.1.similar, ap.1.accepted_dissimilar)) =
      some (stepCounts a.type a.homophily m.preference (neighborTypes m q)) ∧
    ((agentActivate picks
          { m with agents := m.agents.set i ({ a with similar := s0, accepted_dissimilar := d0, perceived_similar := pv0 }, q) }
          i).agents[i]?).map
        (fun ap => (ap.1.similar, ap.1.accepted_dissimilar)) =
      some (stepCounts a.type a.homophily m.preference
        (neighborTypes m q)) := by
  rcases List.getElem?_eq_some_iff.mp hget with ⟨hi, _⟩
  constructor
  · unfold agentActivate
    rw [hget]
    dsimp only
    split
    · rw [List.getElem?_set_eq_of_lt _ hi]
      rfl
    · rw [List.getElem?_set_eq_of_lt _ hi]
      rfl
  · have hset : (m.agents.set i ({ a with similar := s0, accepted_dissimilar := d0, perceived_similar := pv0 }, q))[i]? = some ({ a with similar := s0, accepted_dissimilar := d0, perceived_similar := pv0 }, q) :=
      List.getElem?_set_eq_of_lt _ hi
    have hlen : i < (m.agents.set i ({ a with similar := s0, accepted_dissimilar := d0, perceived_similar := pv0 }, q)).length := by
      simpa using hi
    unfold agentActivate
    dsimp only
    rw [hset]
    dsimp only
    rw [neighborTypes_set m i a ({ a with similar := s0, accepted_dissimilar := d0, perceived_similar := pv0 }) q hget rfl]
    split
    · rw [List.getElem?_set_eq_of_lt _ hlen]
      rfl
    · rw [List.getElem?_set_eq_of_lt _ hlen]
      rfl

/-- Witness for C8: agent 0 of the demo model, with arbitrary stale values
5, 7, 9 planted in its fields. -/
theorem c8_reset_invariant_witness :
    (demoModel.agents[0]? = some (⟨2, 0, 1, 0, 0, 0⟩, (0, 0))) ∧
    ((agentActivate demoPicks demoModel 0).agents[0]?).map
        (fun ap => (ap.1.similar, ap.1.accepted_dissimilar)) =
      some (stepCounts 0 1 demoModel.preference
        (neighborTypes demoModel (0, 0))) :=
  ⟨by with_unfolding_all decide,
    (c8_reset_invariant demoPicks demoModel 0 ⟨2, 0, 1, 0, 0, 0⟩ (0, 0) 5 7 9
        (by with_unfolding_all decide)).1⟩

/-- Claim C1 (evaluation at the failing input): after one tick of the
demo model each agent has `similar = 1` and `accepted_dissimilar = 0`, yet
`perceived_similar` is still the stale value 0 computed at construction —
`SchellingAgent.step` never updates `perceived_similar`, so the collected
metric violates `perceived_similar = similar + accepted_dissimilar`. -/
theorem c1_perceived_similar_stale :
    (modelStep demoPicks [0, 1] demoModel).agents.map
        (fun ap => (ap.1.similar, ap.1.accepted_dissimilar,
          ap.1.perceived_similar)) = [(1, 0, 0), (1, 0, 0)] ∧
    (modelStep demoPicks [0, 1] demoModel).agents.map
        (fun ap => decide (ap.1.perceived_similar =
          (ap.1.similar : ℚ) + ap.1.accepted_dissimilar)) = [false, false] := by
  with_unfolding_all decide

/-- Counterexample to C5: constructing the model with
`homophily_lb = 1 > homophily_ub = 0`, `density = 2 ∉ [0,1]` and
`radius = 0 < 1` does not fail — `Schelling.__init__` performs no
validation and yields a running model instance holding those values. -/
theorem c5_counterexample :
    (schellingInit 3 3 1 0 0 0 2 0 (fun _ => 0)
        (fun _ _ _ => 0)).homophily_lb = 1 ∧
    (schellingInit 3 3 1 0 0 0 2 0 (fun _ => 0)
        (fun _ _ _ => 0)).homophily_ub = 0 ∧
    (schellingInit 3 3 1 0 0 0 2 0 (fun _ => 0)
        (fun _ _ _ => 0)).density = 2 ∧
    (schellingInit 3 3 1 0 0 0 2 0 (fun _ => 0)
        (fun _ _ _ => 0)).radius = 0 ∧
    (schellingInit 3 3 1 0 0 0 2 0 (fun _ => 0)
        (fun _ _ _ => 0)).running = true :=
  ⟨rfl, rfl, rfl, rfl, rfl⟩

/-- Claim C5 (amended): construction never rejects a configuration —
for every parameter assignment, including invalid ranges,
`Schelling.__init__` produces a model instance storing the parameters
verbatim, with `running = true`. -/
theorem c5_no_validation (ht wd : ℕ) (lb ub pref : ℚ) (rad : ℕ)
    (den mpc : ℚ) (rand : ℕ → ℚ) (npU : ℕ → ℚ → ℚ → ℚ) :
    (schellingInit ht wd lb ub pref rad den mpc rand npU).homophily_lb = lb ∧
    (schellingInit ht wd lb ub pref rad den mpc rand npU).homophily_ub = ub ∧
    (schellingInit ht wd lb ub pref rad den mpc rand npU).density = den ∧
    (schellingInit ht wd lb ub pref rad den mpc rand npU).radius = rad ∧
    (schellingInit ht wd lb ub pref rad den mpc rand npU).running = true :=
  ⟨rfl, rfl, rfl, rfl, rfl⟩

lemma initLoop_homophily (lb ub den mpc : ℚ) (rand : ℕ → ℚ)
    (npU : ℕ → ℚ → ℚ → ℚ) (ps : List Pos) (st : InitState)
    (hst : ∀ ap ∈ st.agents,
      1 ≤ ap.1.unique_id ∧ ap.1.homophily = npU (ap.1.unique_id - 1) lb ub) :
    ∀ ap ∈ (ps.foldl (placeCell den mpc lb ub rand npU) st).agents,
      1 ≤ ap.1.unique_id ∧
        ap.1.homophily = npU (ap.1.unique_id - 1) lb ub := by
  induction ps generalizing st with
  | nil => simpa using hst
  | cons q qs ih =>
    rw [List.foldl_cons]
    apply ih
    unfold placeCell
    split
    · intro ap hap
      dsimp only at hap
      rcases List.mem_append.mp hap with hin | hnew
      · exact hst ap hin
      · have : ap = (SchellingAgent.create (st.current_id + 1 + 1)
            (if rand (st.nextRand + 1) < mpc then 1 else 0)
            (npU (st.current_id + 1) lb ub) 0 0, q) :=
          List.mem_singleton.mp hnew
        subst this
        refine ⟨by simp [SchellingAgent.create], ?_⟩
        simp only [SchellingAgent.create]
        congr 1
    · intro ap hap
      exact hst ap hap

/-- Counterexample to C6: on a 1-cell grid with the draw oracle
`npUniform seed lb ub = seed`, the single agent has `unique_id = 2` but
`homophily = 1` — the numpy state was seeded with the `next_id()` value
drawn *before* the agent's own id (here 1), not with the agent's
unique id. -/
theorem c6_counterexample :
    (schellingInit 1 1 0 1 0 1 1 0 (fun _ => 0)
        (fun s _ _ => (s : ℚ))).agents.map
        (fun ap => (ap.1.unique_id, ap.1.homophily)) = [(2, 1)] ∧
    (schellingInit 1 1 0 1 0 1 1 0 (fun _ => 0)
        (fun s _ _ => (s : ℚ))).agents.map
        (fun ap => decide (ap.1.homophily =
          (fun (s : ℕ) (lb2 ub2 : ℚ) => (s : ℚ)) ap.1.unique_id 0 1)) =
      [false] := by
  with_unfolding_all decide

/-- Claim C6 (amended): every agent's homophily is the seeded-uniform draw
`npUniform seed homophily_lb homophily_ub` for the `next_id()` value taken
just before the agent's id — that is, `seed = unique_id - 1` (with
`unique_id ≥ 1`); the draw is still a deterministic, reproducible function
of the agent's id and the bounds. -/
theorem c6_homophily_seed (ht wd : ℕ) (lb ub pref : ℚ) (rad : ℕ)
    (den mpc : ℚ) (rand : ℕ → ℚ) (npU : ℕ → ℚ → ℚ → ℚ)
    (ap : SchellingAgent × Pos)
    (hmem : ap ∈ (schellingInit ht wd lb ub pref rad den mpc rand npU).agents) :
    1 ≤ ap.1.unique_id ∧
      ap.1.homophily = npU (ap.1.unique_id - 1) lb ub := by
  have hinv := initLoop_homophily lb ub den mpc rand npU (coordIter wd ht)
    { nextRand := 0, current_id := 0, agents := [] }
    (by intro ap2 h2; cases h2)
  exact hinv ap hmem

/-- Witness for C6 (amended) at the 1-cell model with oracle
`npUniform seed lb ub = seed`: the agent with `unique_id = 2` has
`homophily = npUniform 1 0 1 = 1`. -/
theorem c6_homophily_seed_witness :
    ((⟨2, 0, 1, 0, 0, 0⟩, ((0, 0) : Pos)) ∈
      (schellingInit 1 1 0 1 0 1 1 0 (fun _ => 0)
        (fun s _ _ => (s : ℚ))).agents) ∧
    (1 ≤ (2 : ℕ) ∧ (1 : ℚ) = (fun (s : ℕ) (lb2 ub2 : ℚ) => (s : ℚ)) (2 - 1) 0 1) :=
  ⟨by with_unfolding_all decide,
    c6_homophily_seed 1 1 0 1 0 1 1 0 (fun _ => 0) (fun s _ _ => (s : ℚ))
      (⟨2, 0, 1, 0, 0, 0⟩, (0, 0)) (by with_unfolding_all decide)⟩

end MesaWPerception
